import Mathlib

/-!
Shallow embedding of the dynamic class registration and controller bridge
core of the cacao repository (src/foundation/class.rs, appkit/src/view/view.rs,
appkit/webview/mod.rs), together with theorems about it.

The Objective-C runtime is modelled as an explicit `Runtime` value holding
the primitives the code calls out to: `objc_getClass`, `ClassDecl::new`
followed by `register` (collapsed into one fallible name-to-pointer
primitive, since the registered class pointer is all the Rust code observes),
and the optional bundle identifier. Class pointers are address-sized
integers, as the source itself stores them (`ptr: usize`). The process-wide
`HashMap` behind the `RwLock` is modelled as an association list with
replace-on-insert semantics; the lock discipline of the source is modelled
separately as lock-event traces.
-/

/-- An entry in a `ClassMap`: the optional superclass name kept for
diagnostics and the class pointer stored as an address-sized integer,
mirroring `struct ClassEntry` in src/foundation/class.rs. -/
structure ClassEntry where
  superclass_name : Option String
  ptr : Nat
deriving DecidableEq, Repr

/-- A key in a `ClassMap`: `(&'static str, Option<&'static str>)`. -/
abbrev ClassKey := String × Option String

/-- The cache contents: the `HashMap<ClassKey, ClassEntry>` behind the
`RwLock`, modelled as an association list with at most the head entry
returned per key and replace-on-insert semantics, as `HashMap::insert`. -/
abbrev ClassMap := List (ClassKey × ClassEntry)

/-- Lookup in the association list modelling `HashMap::get`. -/
def lookupEntry : ClassMap → ClassKey → Option ClassEntry
  | [], _ => none
  | (k2, e) :: rest, k => if k2 = k then some e else lookupEntry rest k

/-- Insert modelling `HashMap::insert`: replaces the entry at an existing
key, otherwise appends a new binding. -/
def insertEntry : ClassMap → ClassKey → ClassEntry → ClassMap
  | [], k, e => [(k, e)]
  | (k2, e2) :: rest, k, e =>
      if k2 = k then (k, e) :: rest else (k2, e2) :: insertEntry rest k e

/-- The host Objective-C runtime, as the set of primitives the source calls:
`getClass` is `objc_getClass` (`none` models a null return), `declNew`
models `ClassDecl::new` on the synthesized subclass name and resolved
superclass pointer followed by `decl.register()` (`none` models declaration
failure), `bundleId` models the `NSBundle` bundle-identifier query (`none`
models a nil identifier). -/
structure Runtime where
  getClass : String → Option Nat
  declNew : String → Nat → Option Nat
  bundleId : Option String

/-- Embedding of `ClassMap::load`: check the internal map under the exact
key; on a miss query the runtime; if the runtime has the class, insert it
(with `superclass_name` as supplied) and return it; otherwise return
`none`. Returns the result together with the cache state after the call. -/
def ClassMap.load (rt : Runtime) (m : ClassMap) (class_name : String)
    (superclass_name : Option String) : Option Nat × ClassMap :=
  match lookupEntry m (class_name, superclass_name) with
  | some entry => (some entry.ptr, m)
  | none =>
    match rt.getClass class_name with
    | none => (none, m)
    | some cls =>
        (some cls, insertEntry m (class_name, superclass_name)
          ⟨superclass_name, cls⟩)

/-- Embedding of `ClassMap::store`: unconditionally insert the entry. -/
def ClassMap.store (m : ClassMap) (class_name : String)
    (superclass_name : Option String) (cls : Nat) : ClassMap :=
  insertEntry m (class_name, superclass_name) ⟨superclass_name, cls⟩

/-- Single-character replacement on a string; `str::replace` of the source
restricted to one-character patterns, which is all `get_bundle_id` uses. -/
def replaceChar (s : String) (a b : Char) : String :=
  ⟨s.data.map (fun c => if c = a then b else c)⟩

/-- Embedding of `get_bundle_id`: `none` when the bundle identifier is nil,
otherwise the identifier with every period and hyphen replaced by an
underscore. -/
def get_bundle_id (rt : Runtime) : Option String :=
  match rt.bundleId with
  | none => none
  | some identifier =>
      some (replaceChar (replaceChar identifier ('.') ('_')) ('-') ('_'))

/-- The `objc_subclass_name` synthesized inside `load_or_register_class`:
subclass, superclass and sanitized bundle id joined by underscores when a
bundle id is obtainable, the two-part name otherwise. -/
def objc_subclass_name (rt : Runtime) (superclass_name subclass_name : String) :
    String :=
  match get_bundle_id rt with
  | some bundle_id =>
      subclass_name ++ "_" ++ superclass_name ++ "_" ++ bundle_id
  | none => subclass_name ++ "_" ++ superclass_name

/-- The panic message of `load_or_register_class` when the superclass
cannot be loaded. -/
def superclassFailMsg (superclass_name subclass_name : String) : String :=
  "Attempted to create subclass for " ++ subclass_name ++
    ", but unable to load superclass of type " ++ superclass_name ++ "."

/-- The panic message of `load_or_register_class` when the subclass
declaration cannot be allocated. -/
def allocFailMsg (superclass_name subclass_name : String) : String :=
  "Subclass of type " ++ subclass_name ++ "_" ++ superclass_name ++
    " could not be allocated."

/-- Embedding of `load_or_register_class`. Panics are modelled as
`Except.error` carrying the panic message. The last component counts how
many times the `config` callback was invoked during the call: the source
invokes it exactly once, between a successful `ClassDecl::new` and
`decl.register()`, and never on any other path. -/
def load_or_register_class (rt : Runtime) (superclass_name subclass_name : String)
    (m : ClassMap) : Except String Nat × ClassMap × Nat :=
  match ClassMap.load rt m subclass_name (some superclass_name) with
  | (some subclass, m1) => (Except.ok subclass, m1, 0)
  | (none, m1) =>
    match ClassMap.load rt m1 superclass_name none with
    | (some superclass, m2) =>
      match rt.declNew (objc_subclass_name rt superclass_name subclass_name)
          superclass with
      | some cls =>
          (Except.ok cls,
            ClassMap.store m2 subclass_name (some superclass_name) cls, 1)
      | none =>
          (Except.error (allocFailMsg superclass_name subclass_name), m2, 0)
    | (none, m2) =>
        (Except.error (superclassFailMsg superclass_name subclass_name), m2, 0)

/-- A runtime that knows no classes, can register nothing, and runs outside
a bundle. -/
def rtEmpty : Runtime :=
  { getClass := fun _ => none, declNew := fun _ _ => none, bundleId := none }

/-- A runtime for concrete tests: `NSViewController` exists natively at
address 7, any declaration registers at the superclass address plus 100,
and the bundle identifier is "com.example.App". -/
def rtDemo : Runtime :=
  { getClass := fun n => if n = "NSViewController" then some 7 else none,
    declNew := fun _ sp => some (sp + 100),
    bundleId := some ("com.example.App") }

theorem lookup_insertEntry_self (m : ClassMap) (k : ClassKey) (e : ClassEntry) :
    lookupEntry (insertEntry m k e) k = some e := by
  induction m with
  | nil => simp [insertEntry, lookupEntry]
  | cons p rest ih =>
      obtain ⟨k2, e2⟩ := p
      by_cases h : k2 = k
      · simp [insertEntry, lookupEntry, h]
      · simp [insertEntry, lookupEntry, h, ih]

theorem lookup_insertEntry_ne (m : ClassMap) (k k2 : ClassKey) (e : ClassEntry)
    (h : k ≠ k2) : lookupEntry (insertEntry m k e) k2 = lookupEntry m k2 := by
  induction m with
  | nil => simp [insertEntry, lookupEntry, h]
  | cons p rest ih =>
      obtain ⟨k3, e3⟩ := p
      by_cases h3 : k3 = k
      · subst h3
        simp [insertEntry, lookupEntry, h]
      · simp [insertEntry, lookupEntry, h3, ih]

/-- A runtime for the key-distinctness test: a class named "B" exists
natively at address 2, nothing can be registered, no bundle. -/
def rtB : Runtime :=
  { getClass := fun n => if n = "B" then some 2 else none,
    declNew := fun _ _ => none, bundleId := none }

/-- C3: `ClassMap.load` checks the internal map under the exact key first;
on a miss it queries the host runtime; a runtime hit is inserted into the
map, keyed with the superclass name as supplied, before the pointer is
returned; and the result is absent exactly when the class is in neither
the map nor the runtime. In particular, loading "Unregistered" with no
superclass on an empty cache over an empty runtime returns `none`. -/
theorem load_checks_map_then_runtime (rt : Runtime) (m : ClassMap)
    (n : String) (s : Option String) :
    (∀ e, lookupEntry m (n, s) = some e →
        ClassMap.load rt m n s = (some e.ptr, m))
    ∧ (∀ c, lookupEntry m (n, s) = none → rt.getClass n = some c →
        ClassMap.load rt m n s = (some c, insertEntry m (n, s) ⟨s, c⟩))
    ∧ ((ClassMap.load rt m n s).1 = none ↔
        lookupEntry m (n, s) = none ∧ rt.getClass n = none)
    ∧ ClassMap.load rtEmpty [] ("Unregistered") none = (none, []) := by
  refine ⟨?_, ?_, ?_, rfl⟩
  · intro e he
    simp [ClassMap.load, he]
  · intro c he hc
    simp [ClassMap.load, he, hc]
  · constructor
    · intro h
      cases hl : lookupEntry m (n, s) with
      | some e => simp [ClassMap.load, hl] at h
      | none =>
          cases hc : rt.getClass n with
          | some c => simp [ClassMap.load, hl, hc] at h
          | none => exact ⟨rfl, rfl⟩
    · rintro ⟨hl, hc⟩
      simp [ClassMap.load, hl, hc]

/-- Witness for C3: on the demo runtime, loading the natively present
`NSViewController` through an empty cache returns its pointer and caches
it under the supplied (absent) superclass name. -/
theorem load_checks_map_then_runtime_w :
    ClassMap.load rtDemo [] ("NSViewController") none =
      (some 7, insertEntry [] (("NSViewController"), none) ⟨none, 7⟩) :=
  (load_checks_map_then_runtime rtDemo [] ("NSViewController") none).2.1 7
    rfl (by decide)

/-- C7: cache keys with the same class name but different optional
superclass names are independent entries: a store under one key leaves
lookups under the other unchanged, a load of the stored key returns its
own pointer, and the entry that a load may cache under its own key leaves
lookups under the other key unchanged. -/
theorem cache_keys_distinct (rt : Runtime) (m : ClassMap) (n : String)
    (s1 s2 : Option String) (p : Nat) (hne : s1 ≠ s2) :
    lookupEntry (ClassMap.store m n s1 p) (n, s2) = lookupEntry m (n, s2)
    ∧ (ClassMap.load rt (ClassMap.store m n s1 p) n s1).1 = some p
    ∧ lookupEntry (ClassMap.load rt m n s2).2 (n, s1) = lookupEntry m (n, s1)
    := by
  have hkey : ((n, s1) : ClassKey) ≠ (n, s2) := by
    intro h
    exact hne (congrArg Prod.snd h)
  refine ⟨?_, ?_, ?_⟩
  · exact lookup_insertEntry_ne m (n, s1) (n, s2) ⟨s1, p⟩ hkey
  · simp [ClassMap.load, ClassMap.store, lookup_insertEntry_self]
  · cases hl : lookupEntry m (n, s2) with
    | some e => simp [ClassMap.load, hl]
    | none =>
        cases hc : rt.getClass n with
        | some c =>
            simp [ClassMap.load, hl, hc]
            exact lookup_insertEntry_ne m (n, s2) (n, s1) ⟨s2, c⟩ hkey.symm
        | none => simp [ClassMap.load, hl, hc]

/-- Witness for C7: store ("B", some "A") at 1, then cache a plain lookup
of ("B", none) that the runtime resolves to 2; the plain lookup does not
disturb the stored entry, and loading the stored key yields 1, not 2. -/
theorem cache_keys_distinct_w :
    lookupEntry (ClassMap.store [] ("B") (some ("A")) 1) (("B"), none) = none
    ∧ (ClassMap.load rtB (ClassMap.store [] ("B") (some ("A")) 1) ("B")
        (some ("A"))).1 = some 1
    ∧ lookupEntry
        (ClassMap.load rtB (ClassMap.store [] ("B") (some ("A")) 1) ("B")
          none).2 (("B"), some ("A")) = some ⟨some ("A"), 1⟩ := by
  have h1 := cache_keys_distinct rtB [] ("B") (some ("A")) none 1 (by decide)
  have h2 := cache_keys_distinct rtB (ClassMap.store [] ("B") (some ("A")) 1)
    ("B") (some ("A")) none 1 (by decide)
  exact ⟨h1.1.trans rfl, h1.2.1, h2.2.2.trans (by decide)⟩

theorem string_data_append (a b : String) : (a ++ b).data = a.data ++ b.data := by
  cases a
  cases b
  rfl

theorem string_length_append (a b : String) :
    (a ++ b).length = a.length + b.length := by
  show (a ++ b).data.length = a.data.length + b.data.length
  rw [string_data_append]
  exact List.length_append _ _

theorem failMsg_ne (S B : String) : superclassFailMsg S B ≠ allocFailMsg S B := by
  intro h
  have hlen := congrArg String.length h
  simp only [superclassFailMsg, allocFailMsg, string_length_append] at hlen
  have c1 : ("Attempted to create subclass for " : String).length = 33 := rfl
  have c2 : (", but unable to load superclass of type " : String).length = 40 := rfl
  have c3 : ("." : String).length = 1 := rfl
  have c4 : ("Subclass of type " : String).length = 17 := rfl
  have c5 : ("_" : String).length = 1 := rfl
  have c6 : (" could not be allocated." : String).length = 24 := rfl
  rw [c1, c2, c3, c4, c5, c6] at hlen
  omega

theorem load_cases (rt : Runtime) (m : ClassMap) (n : String) (s : Option String) :
    (∃ e, lookupEntry m (n, s) = some e ∧ ClassMap.load rt m n s = (some e.ptr, m))
    ∨ (lookupEntry m (n, s) = none ∧ rt.getClass n = none
        ∧ ClassMap.load rt m n s = (none, m))
    ∨ (∃ c, lookupEntry m (n, s) = none ∧ rt.getClass n = some c
        ∧ ClassMap.load rt m n s = (some c, insertEntry m (n, s) ⟨s, c⟩)) := by
  unfold ClassMap.load
  cases hl : lookupEntry m (n, s) with
  | some e => exact Or.inl ⟨e, rfl, rfl⟩
  | none =>
      cases hg : rt.getClass n with
      | none => exact Or.inr (Or.inl ⟨rfl, rfl, rfl⟩)
      | some c => exact Or.inr (Or.inr ⟨c, rfl, rfl, rfl⟩)

theorem lorc_run_hot (rt : Runtime) (m m1 : ClassMap) (S B : String) (sub : Nat)
    (h : ClassMap.load rt m B (some S) = (some sub, m1)) :
    load_or_register_class rt S B m = (Except.ok sub, m1, 0) := by
  simp only [load_or_register_class, h]

theorem lorc_run_reg (rt : Runtime) (m m1 m2 : ClassMap) (S B : String)
    (sp cls : Nat)
    (h1 : ClassMap.load rt m B (some S) = (none, m1))
    (h2 : ClassMap.load rt m1 S none = (some sp, m2))
    (hd : rt.declNew (objc_subclass_name rt S B) sp = some cls) :
    load_or_register_class rt S B m =
      (Except.ok cls, ClassMap.store m2 B (some S) cls, 1) := by
  simp only [load_or_register_class, h1, h2, hd]

theorem lorc_run_alloc_fail (rt : Runtime) (m m1 m2 : ClassMap) (S B : String)
    (sp : Nat)
    (h1 : ClassMap.load rt m B (some S) = (none, m1))
    (h2 : ClassMap.load rt m1 S none = (some sp, m2))
    (hd : rt.declNew (objc_subclass_name rt S B) sp = none) :
    load_or_register_class rt S B m =
      (Except.error (allocFailMsg S B), m2, 0) := by
  simp only [load_or_register_class, h1, h2, hd]

theorem lorc_run_super_fail (rt : Runtime) (m m1 m2 : ClassMap) (S B : String)
    (h1 : ClassMap.load rt m B (some S) = (none, m1))
    (h2 : ClassMap.load rt m1 S none = (none, m2)) :
    load_or_register_class rt S B m =
      (Except.error (superclassFailMsg S B), m2, 0) := by
  simp only [load_or_register_class, h1, h2]

theorem lorc_cached (rt : Runtime) (m : ClassMap) (S B : String) (e : ClassEntry)
    (he : lookupEntry m (B, some S) = some e) :
    load_or_register_class rt S B m = (Except.ok e.ptr, m, 0) := by
  have hload : ClassMap.load rt m B (some S) = (some e.ptr, m) := by
    unfold ClassMap.load
    rw [he]
  exact lorc_run_hot rt m m S B e.ptr hload

theorem lorc_success_cached (rt : Runtime) (m m2 : ClassMap) (S B : String)
    (h k : Nat)
    (hfirst : load_or_register_class rt S B m = (Except.ok h, m2, k)) :
    (∃ e, lookupEntry m2 (B, some S) = some e ∧ e.ptr = h) ∧ k ≤ 1 := by
  rcases load_cases rt m B (some S) with ⟨e, he, hload⟩ | ⟨hl, hg, hload⟩ |
    ⟨c, hl, hg, hload⟩
  · rw [lorc_run_hot rt m m S B e.ptr hload] at hfirst
    simp only [Prod.mk.injEq, Except.ok.injEq] at hfirst
    obtain ⟨hh, hm, hk⟩ := hfirst
    subst hm
    exact ⟨⟨e, he, hh⟩, by omega⟩
  · rcases load_cases rt m S none with ⟨e2, he2, hload2⟩ | ⟨hl2, hg2, hload2⟩ |
      ⟨c2, hl2, hg2, hload2⟩
    · cases hd : rt.declNew (objc_subclass_name rt S B) e2.ptr with
      | some cls =>
          rw [lorc_run_reg rt m m m S B e2.ptr cls hload hload2 hd] at hfirst
          simp only [Prod.mk.injEq, Except.ok.injEq] at hfirst
          obtain ⟨hh, hm, hk⟩ := hfirst
          subst hm
          exact ⟨⟨⟨some S, cls⟩,
            lookup_insertEntry_self m (B, some S) ⟨some S, cls⟩, hh⟩, by omega⟩
      | none =>
          rw [lorc_run_alloc_fail rt m m m S B e2.ptr hload hload2 hd] at hfirst
          simp at hfirst
    · rw [lorc_run_super_fail rt m m m S B hload hload2] at hfirst
      simp at hfirst
    · cases hd : rt.declNew (objc_subclass_name rt S B) c2 with
      | some cls =>
          rw [lorc_run_reg rt m m _ S B c2 cls hload hload2 hd] at hfirst
          simp only [Prod.mk.injEq, Except.ok.injEq] at hfirst
          obtain ⟨hh, hm, hk⟩ := hfirst
          subst hm
          exact ⟨⟨⟨some S, cls⟩,
            lookup_insertEntry_self _ (B, some S) ⟨some S, cls⟩, hh⟩, by omega⟩
      | none =>
          rw [lorc_run_alloc_fail rt m m _ S B c2 hload hload2 hd] at hfirst
          simp at hfirst
  · rw [lorc_run_hot rt m _ S B c hload] at hfirst
    simp only [Prod.mk.injEq, Except.ok.injEq] at hfirst
    obtain ⟨hh, hm, hk⟩ := hfirst
    subst hm
    exact ⟨⟨⟨some S, c⟩,
      lookup_insertEntry_self m (B, some S) ⟨some S, c⟩, hh⟩, by omega⟩

/-- C2: when a first call of `load_or_register_class` with superclass `S`
and subclass `B` succeeds with handle `h`, leaving cache `m2` after `k`
invocations of the declaration callback, a second call with the same
arguments returns the same handle `h` from the cache, leaves the cache
unchanged, invokes the callback zero further times, and the total number
of callback invocations across the two calls is at most one. -/
theorem registrar_idempotent (rt : Runtime) (m m2 : ClassMap) (S B : String)
    (h k : Nat)
    (hfirst : load_or_register_class rt S B m = (Except.ok h, m2, k)) :
    load_or_register_class rt S B m2 = (Except.ok h, m2, 0) ∧ k + 0 ≤ 1 := by
  obtain ⟨⟨e, he, hp⟩, hk⟩ := lorc_success_cached rt m m2 S B h k hfirst
  refine ⟨?_, by omega⟩
  have h2 := lorc_cached rt m2 S B e he
  rw [hp] at h2
  exact h2

/-- Witness for C2: registering `MyController` under `NSViewController` on
the demo runtime invokes the callback once and yields handle 107; the
immediate second call returns 107 from the cache with no further callback
invocation. -/
theorem registrar_idempotent_w :
    load_or_register_class rtDemo ("NSViewController") ("MyController")
        ((load_or_register_class rtDemo ("NSViewController") ("MyController")
          []).2.1)
      = (Except.ok 107,
          (load_or_register_class rtDemo ("NSViewController") ("MyController")
            []).2.1, 0)
    ∧ 1 + 0 ≤ 1 :=
  registrar_idempotent rtDemo []
    ((load_or_register_class rtDemo ("NSViewController") ("MyController")
      []).2.1)
    ("NSViewController") ("MyController") 107 1 rfl

/-- C4: `load_or_register_class` aborts with the message naming the missing
superclass exactly when neither the subclass nor the superclass resolves;
it aborts with the allocation message exactly when the superclass resolves
but the runtime declaration cannot be created; every error it can produce
is one of those two messages, each of which names both the subclass and
the superclass; and in all other cases it returns a handle. -/
theorem registrar_panics_exactly (rt : Runtime) (S B : String) (m : ClassMap) :
    ((load_or_register_class rt S B m).1
        = Except.error (superclassFailMsg S B)
      ↔ (ClassMap.load rt m B (some S)).1 = none
        ∧ (ClassMap.load rt (ClassMap.load rt m B (some S)).2 S none).1 = none)
    ∧ ((load_or_register_class rt S B m).1 = Except.error (allocFailMsg S B)
      ↔ (ClassMap.load rt m B (some S)).1 = none
        ∧ ∃ sp, (ClassMap.load rt (ClassMap.load rt m B (some S)).2 S none).1
              = some sp
            ∧ rt.declNew (objc_subclass_name rt S B) sp = none)
    ∧ (∀ msg, (load_or_register_class rt S B m).1 = Except.error msg →
        msg = superclassFailMsg S B ∨ msg = allocFailMsg S B)
    ∧ ((∃ hcl, (load_or_register_class rt S B m).1 = Except.ok hcl)
        ∨ (load_or_register_class rt S B m).1
            = Except.error (superclassFailMsg S B)
        ∨ (load_or_register_class rt S B m).1
            = Except.error (allocFailMsg S B))
    ∧ (∃ x y z, superclassFailMsg S B = x ++ B ++ y ++ S ++ z)
    ∧ (∃ x y z, allocFailMsg S B = x ++ B ++ y ++ S ++ z) := by
  rcases load_cases rt m B (some S) with ⟨e, he, hload⟩ | ⟨hl, hg, hload⟩ |
    ⟨c, hl, hg, hload⟩
  · have hr1 : (load_or_register_class rt S B m).1 = Except.ok e.ptr := by
      rw [lorc_run_hot rt m m S B e.ptr hload]
    refine ⟨?_, ?_, ?_, Or.inl ⟨e.ptr, hr1⟩, ⟨_, _, _, rfl⟩, ⟨_, _, _, rfl⟩⟩
    · simp [hr1, hload]
    · simp [hr1, hload]
    · intro msg hx
      rw [hr1] at hx
      simp at hx
  · rcases load_cases rt m S none with ⟨e2, he2, hload2⟩ | ⟨hl2, hg2, hload2⟩ |
      ⟨c2, hl2, hg2, hload2⟩
    · cases hd : rt.declNew (objc_subclass_name rt S B) e2.ptr with
      | some cls =>
          have hr1 : (load_or_register_class rt S B m).1 = Except.ok cls := by
            rw [lorc_run_reg rt m m m S B e2.ptr cls hload hload2 hd]
          refine ⟨?_, ?_, ?_, Or.inl ⟨cls, hr1⟩, ⟨_, _, _, rfl⟩, ⟨_, _, _, rfl⟩⟩
          · simp [hr1, hload, hload2]
          · simp [hr1, hload, hload2, hd]
          · intro msg hx
            rw [hr1] at hx
            simp at hx
      | none =>
          have hr1 : (load_or_register_class rt S B m).1
              = Except.error (allocFailMsg S B) := by
            rw [lorc_run_alloc_fail rt m m m S B e2.ptr hload hload2 hd]
          refine ⟨?_, ?_, ?_, Or.inr (Or.inr hr1), ⟨_, _, _, rfl⟩,
            ⟨_, _, _, rfl⟩⟩
          · simp [hr1, hload, hload2, Ne.symm (failMsg_ne S B), failMsg_ne S B]
          · simp [hr1, hload, hload2, hd]
          · intro msg hx
            rw [hr1] at hx
            injection hx with hx2
            exact Or.inr hx2.symm
    · have hr1 : (load_or_register_class rt S B m).1
          = Except.error (superclassFailMsg S B) := by
        rw [lorc_run_super_fail rt m m m S B hload hload2]
      refine ⟨?_, ?_, ?_, Or.inr (Or.inl hr1), ⟨_, _, _, rfl⟩, ⟨_, _, _, rfl⟩⟩
      · simp [hr1, hload, hload2]
      · simp [hr1, hload, hload2, failMsg_ne S B, Ne.symm (failMsg_ne S B)]
      · intro msg hx
        rw [hr1] at hx
        injection hx with hx2
        exact Or.inl hx2.symm
    · cases hd : rt.declNew (objc_subclass_name rt S B) c2 with
      | some cls =>
          have hr1 : (load_or_register_class rt S B m).1 = Except.ok cls := by
            rw [lorc_run_reg rt m m _ S B c2 cls hload hload2 hd]
          refine ⟨?_, ?_, ?_, Or.inl ⟨cls, hr1⟩, ⟨_, _, _, rfl⟩, ⟨_, _, _, rfl⟩⟩
          · simp [hr1, hload, hload2]
          · simp [hr1, hload, hload2, hd]
          · intro msg hx
            rw [hr1] at hx
            simp at hx
      | none =>
          have hr1 : (load_or_register_class rt S B m).1
              = Except.error (allocFailMsg S B) := by
            rw [lorc_run_alloc_fail rt m m _ S B c2 hload hload2 hd]
          refine ⟨?_, ?_, ?_, Or.inr (Or.inr hr1), ⟨_, _, _, rfl⟩,
            ⟨_, _, _, rfl⟩⟩
          · simp [hr1, hload, hload2, Ne.symm (failMsg_ne S B), failMsg_ne S B]
          · simp [hr1, hload, hload2, hd]
          · intro msg hx
            rw [hr1] at hx
            injection hx with hx2
            exact Or.inr hx2.symm
  · have hr1 : (load_or_register_class rt S B m).1 = Except.ok c := by
      rw [lorc_run_hot rt m _ S B c hload]
    refine ⟨?_, ?_, ?_, Or.inl ⟨c, hr1⟩, ⟨_, _, _, rfl⟩, ⟨_, _, _, rfl⟩⟩
    · simp [hr1, hload]
    · simp [hr1, hload]
    · intro msg hx
      rw [hr1] at hx
      simp at hx

/-- Witness for C4: on the empty runtime with an empty cache, registering
`MyController` under `NSViewController` aborts with the message naming the
unresolvable superclass. -/
theorem registrar_panics_exactly_w :
    (load_or_register_class rtEmpty ("NSViewController") ("MyController")
        []).1
      = Except.error
          (superclassFailMsg ("NSViewController") ("MyController")) :=
  (registrar_panics_exactly rtEmpty ("NSViewController") ("MyController")
    []).1.mpr ⟨rfl, rfl⟩

theorem replaceChar_ne (s : String) (a b : Char) (hba : b ≠ a) :
    ∀ c ∈ (replaceChar s a b).data, c ≠ a := by
  intro c hc
  simp only [replaceChar, List.mem_map] at hc
  obtain ⟨x, hx, hfx⟩ := hc
  subst hfx
  by_cases h : x = a
  · simp [h, hba]
  · simp [h]

theorem replaceChar_preserve (s : String) (a b x : Char) (hbx : b ≠ x)
    (hs : ∀ c ∈ s.data, c ≠ x) :
    ∀ c ∈ (replaceChar s a b).data, c ≠ x := by
  intro c hc
  simp only [replaceChar, List.mem_map] at hc
  obtain ⟨y, hy, hfy⟩ := hc
  subst hfy
  by_cases h : y = a
  · simp [h, hbx]
  · simp only [if_neg h]
    exact hs y hy

/-- C5: when the bundle identifier is obtainable, the synthesized runtime
name is the subclass name, superclass name and sanitized bundle identifier
joined by underscores; assuming the class names themselves use neither a
period nor a hyphen, the synthesized name contains no period and no
hyphen; it differs from the two-part name synthesized without a bundle
identifier; and with no bundle identifier obtainable the synthesized name
is exactly the two-part name. -/
theorem synthesized_name_sanitized (rt : Runtime) (S B bid : String)
    (hb : rt.bundleId = some bid)
    (hS : ∀ c ∈ S.data, c ≠ ('.') ∧ c ≠ ('-'))
    (hB : ∀ c ∈ B.data, c ≠ ('.') ∧ c ≠ ('-')) :
    objc_subclass_name rt S B
        = B ++ "_" ++ S ++ "_"
            ++ replaceChar (replaceChar bid ('.') ('_')) ('-') ('_')
    ∧ (∀ c ∈ (objc_subclass_name rt S B).data, c ≠ ('.') ∧ c ≠ ('-'))
    ∧ objc_subclass_name rt S B ≠ B ++ "_" ++ S
    ∧ (∀ rt2 : Runtime, rt2.bundleId = none →
        objc_subclass_name rt2 S B = B ++ "_" ++ S) := by
  have h1 : objc_subclass_name rt S B
      = B ++ "_" ++ S ++ "_"
          ++ replaceChar (replaceChar bid ('.') ('_')) ('-') ('_') := by
    simp [objc_subclass_name, get_bundle_id, hb]
  have hu : ∀ c ∈ ("_" : String).data, c ≠ ('.') ∧ c ≠ ('-') := by decide
  have hsan : ∀ c ∈ (replaceChar (replaceChar bid ('.') ('_')) ('-')
      ('_')).data, c ≠ ('.') ∧ c ≠ ('-') := by
    intro c hc
    refine ⟨?_, ?_⟩
    · exact replaceChar_preserve (replaceChar bid ('.') ('_')) ('-') ('_')
        ('.') (by decide) (replaceChar_ne bid ('.') ('_') (by decide)) c hc
    · exact replaceChar_ne (replaceChar bid ('.') ('_')) ('-') ('_')
        (by decide) c hc
  refine ⟨h1, ?_, ?_, ?_⟩
  · intro c hc
    rw [h1] at hc
    simp only [string_data_append, List.mem_append] at hc
    rcases hc with ((((hc | hc) | hc) | hc) | hc)
    · exact hB c hc
    · exact hu c hc
    · exact hS c hc
    · exact hu c hc
    · exact hsan c hc
  · rw [h1]
    intro heq
    have hlen := congrArg String.length heq
    simp only [string_length_append] at hlen
    have hu1 : ("_" : String).length = 1 := rfl
    rw [hu1] at hlen
    omega
  · intro rt2 h2
    simp [objc_subclass_name, get_bundle_id, h2]

/-- Witness for C5: the bundle identifier "com.example.App" on the demo
runtime yields the fragment `com_example_App` in the synthesized name. -/
theorem synthesized_name_sanitized_w :
    objc_subclass_name rtDemo ("NSViewController") ("MyController")
      = ("MyController_NSViewController_com_example_App") := by
  have h := synthesized_name_sanitized rtDemo ("NSViewController")
    ("MyController") ("com.example.App") rfl (by decide) (by decide)
  exact h.1.trans (by decide)

/-- Strong-count effect of `Rc::clone`: one extra strong reference. -/
def rcClone (strong : Nat) : Nat := strong + 1

/-- Strong-count effect of `Rc::into_raw`: shared ownership is converted
into a raw pointer without decrementing the count. -/
def rcIntoRaw (strong : Nat) : Nat := strong

/-- Strong-count effect of `Rc::from_raw`: the raw pointer is reclaimed
into an owned reference without changing the count. -/
def rcFromRaw (strong : Nat) : Nat := strong

/-- Strong-count effect of dropping one owned shared reference. -/
def rcDropOwned (strong : Nat) : Nat := strong - 1

/-- The reference-count effect on the controller of the bind step of
`WebView::new` (appkit/webview/mod.rs lines 48-51):
`Rc::into_raw(Rc::clone(&controller))`. -/
def webViewBind (strong : Nat) : Nat := rcIntoRaw (rcClone strong)

/-- The reference-count effect of `Drop for View` (appkit/webview/mod.rs
lines 129-136): `Rc::from_raw(self.internal_callback_ptr)` and the
immediate drop of the reclaimed reference. -/
def viewDropTeardown (strong : Nat) : Nat := rcDropOwned (rcFromRaw strong)

/-- C1: each successful bind creates exactly one extra strong reference
(the raw conversion does not decrement the count), each wrapper
destruction reclaims exactly one, and after `N` binds followed by `N`
teardowns the controller's reference count equals its pre-bind value. -/
theorem bridge_balance (n N : Nat) :
    webViewBind n = n + 1
    ∧ viewDropTeardown (webViewBind n) = n
    ∧ viewDropTeardown^[N] (webViewBind^[N] n) = n := by
  have hb : ∀ k x, webViewBind^[k] x = x + k := by
    intro k
    induction k with
    | zero => intro x; simp
    | succ j ih =>
        intro x
        rw [Function.iterate_succ_apply', ih]
        simp [webViewBind, rcIntoRaw, rcClone]
        omega
  have ht : ∀ k x, viewDropTeardown^[k] (x + k) = x := by
    intro k
    induction k with
    | zero => intro x; simp
    | succ j ih =>
        intro x
        rw [Function.iterate_succ_apply]
        have hstep : viewDropTeardown (x + (j + 1)) = x + j := by
          simp [viewDropTeardown, rcDropOwned, rcFromRaw]
        rw [hstep, ih]
  refine ⟨rfl, rfl, ?_⟩
  rw [hb N n, ht N n]

/-- Events of a bridge operation, in program order. -/
inductive BridgeEvent where
  | allocController
  | storeControllerPtr
  | allocNativeView
  | attachNativeView
  | invokeDidLoad
deriving DecidableEq

/-- The event sequence of `WebView::new` (appkit/webview/mod.rs lines
53-77) up to the return of the wrapper, together with the argument passed
to `did_load` and the handle held by the returned wrapper, given the native
view-controller pointer the runtime allocates: allocate the controller,
store the callback pointer in its ivar, allocate and initialize the
`WKWebView`, attach it via `setView:`, then invoke `did_load` with a clone
of the same handle the wrapper keeps. -/
def webViewNewRun (vc : Nat) : List BridgeEvent × Option Nat × Nat :=
  ([BridgeEvent.allocController, BridgeEvent.storeControllerPtr,
    BridgeEvent.allocNativeView, BridgeEvent.attachNativeView,
    BridgeEvent.invokeDidLoad], some vc, vc)

/-- The event sequence of `View::configure` (appkit/src/view/view.rs lines
53-60): the inner configure allocates the controller and stores the raw
controller pointer on the controller and again on its view; afterwards
`did_load()` is invoked with no argument. The second component is the
argument passed to `did_load`; the third is the handle now held by the
wrapper. -/
def viewConfigureRun (vc : Nat) : List BridgeEvent × Option Nat × Nat :=
  ([BridgeEvent.allocController, BridgeEvent.storeControllerPtr,
    BridgeEvent.storeControllerPtr, BridgeEvent.invokeDidLoad], none, vc)

/-- Counterexample for C6: in `View::configure` the `did_load` hook is
invoked with no argument — it is not passed the native handle the wrapper
holds. -/
theorem did_load_no_handle_in_configure :
    (viewConfigureRun 5).2.1 = none
    ∧ (viewConfigureRun 5).2.1 ≠ some ((viewConfigureRun 5).2.2) := by
  exact ⟨rfl, by decide⟩

/-- C6 as amended: in both bridge operations `did_load` is invoked exactly
once, strictly after the native controller allocation and configuration
and as the last step before the operation returns; `WebView::new` passes
it the same native handle the returned wrapper holds, while
`View::configure` invokes it with no argument. -/
theorem did_load_once (vc : Nat) :
    (webViewNewRun vc).1.count BridgeEvent.invokeDidLoad = 1
    ∧ (viewConfigureRun vc).1.count BridgeEvent.invokeDidLoad = 1
    ∧ (webViewNewRun vc).1.indexOf BridgeEvent.allocController
        < (webViewNewRun vc).1.indexOf BridgeEvent.invokeDidLoad
    ∧ (viewConfigureRun vc).1.indexOf BridgeEvent.allocController
        < (viewConfigureRun vc).1.indexOf BridgeEvent.invokeDidLoad
    ∧ (webViewNewRun vc).1.getLast? = some BridgeEvent.invokeDidLoad
    ∧ (viewConfigureRun vc).1.getLast? = some BridgeEvent.invokeDidLoad
    ∧ (webViewNewRun vc).2.1 = some ((webViewNewRun vc).2.2)
    ∧ (viewConfigureRun vc).2.1 = none := by
  have hw : (webViewNewRun vc).1
      = [BridgeEvent.allocController, BridgeEvent.storeControllerPtr,
          BridgeEvent.allocNativeView, BridgeEvent.attachNativeView,
          BridgeEvent.invokeDidLoad] := rfl
  have hv : (viewConfigureRun vc).1
      = [BridgeEvent.allocController, BridgeEvent.storeControllerPtr,
          BridgeEvent.storeControllerPtr, BridgeEvent.invokeDidLoad] := rfl
  simp only [hw, hv]
  refine ⟨by decide, by decide, by decide, by decide, by decide, by decide,
    rfl, rfl⟩

/-- Native calls a forwarding wrapper operation can perform. -/
inductive NativeCall where
  | arrayWithObjects (types : List Nat)
  | fetchView
  | registerDraggedTypes
deriving DecidableEq

/-- The inner state of a `View` wrapper: the optionally present native
view-controller handle, as in `struct ViewInner`. -/
structure ViewInner where
  controller : Option Nat
deriving DecidableEq

/-- Embedding of `ViewInner::register_for_dragged_types`: with a
controller present it builds the native type array, fetches the view and
registers the types on it; with no controller present it does nothing.
Returns the native calls performed together with the state after the call
(the source takes `&self`, so the state is unchanged on every path). -/
def ViewInner.register_for_dragged_types (v : ViewInner)
    (types : List Nat) : List NativeCall × ViewInner :=
  match v.controller with
  | some _ =>
      ([NativeCall.arrayWithObjects types, NativeCall.fetchView,
        NativeCall.registerDraggedTypes], v)
  | none => ([], v)

/-- Embedding of `View::register_for_dragged_types`: borrows the inner
view and forwards. -/
def View.register_for_dragged_types (v : ViewInner) (types : List Nat) :
    List NativeCall × ViewInner :=
  ViewInner.register_for_dragged_types v types

/-- C8: when no underlying native object is present, the forwarding
operation is a no-op: it returns normally, performs no native call, and
leaves the wrapper state unchanged. -/
theorem unconfigured_forward_noop (v : ViewInner) (types : List Nat)
    (h : v.controller = none) :
    View.register_for_dragged_types v types = ([], v) := by
  simp [View.register_for_dragged_types,
    ViewInner.register_for_dragged_types, h]

/-- Witness for C8: the unconfigured wrapper ignores a drag registration. -/
theorem unconfigured_forward_noop_w :
    View.register_for_dragged_types ⟨none⟩ [1, 2] = ([], ⟨none⟩) :=
  unconfigured_forward_noop ⟨none⟩ [1, 2] rfl

/-- Lock and map events of one execution path through the cache. -/
inductive LockEvent where
  | readAcquire
  | readRelease
  | writeAcquire
  | writeRelease
  | mapRead
  | mapWrite
deriving DecidableEq

/-- The ordered lock and map events of one execution of `ClassMap::load`
(src/foundation/class.rs lines 69-104): `hit` is whether the internal map
had the key, `runtimeHas` whether `objc_getClass` found the class after a
miss. The read guard is scoped to the first block and is released on every
path before anything else happens; the write lock is taken only on the
insert path, strictly after that release. -/
def loadLockTrace (hit runtimeHas : Bool) : List LockEvent :=
  if hit then
    [LockEvent.readAcquire, LockEvent.mapRead, LockEvent.readRelease]
  else if runtimeHas then
    [LockEvent.readAcquire, LockEvent.mapRead, LockEvent.readRelease,
      LockEvent.writeAcquire, LockEvent.mapWrite, LockEvent.writeRelease]
  else
    [LockEvent.readAcquire, LockEvent.mapRead, LockEvent.readRelease]

/-- The lock and map events of `ClassMap::store` (lines 107-114). -/
def storeLockTrace : List LockEvent :=
  [LockEvent.writeAcquire, LockEvent.mapWrite, LockEvent.writeRelease]

/-- Scans a trace carrying the number of read and write locks the thread
holds; `true` when the locking is well bracketed, every map read happens
under some lock and every map write under the write lock, and a lock is
only ever acquired while the thread holds no lock at all — so the thread
never waits on the `RwLock` while holding it, which rules out the
read-then-write self-deadlock. -/
def lockDisciplineOk : Nat → Nat → List LockEvent → Bool
  | _, _, [] => true
  | r, w, LockEvent.readAcquire :: rest =>
      r == 0 && w == 0 && lockDisciplineOk (r + 1) w rest
  | r, w, LockEvent.readRelease :: rest =>
      decide (0 < r) && lockDisciplineOk (r - 1) w rest
  | r, w, LockEvent.writeAcquire :: rest =>
      r == 0 && w == 0 && lockDisciplineOk r (w + 1) rest
  | r, w, LockEvent.writeRelease :: rest =>
      decide (0 < w) && lockDisciplineOk r (w - 1) rest
  | r, w, LockEvent.mapRead :: rest =>
      (decide (0 < r) || decide (0 < w)) && lockDisciplineOk r w rest
  | r, w, LockEvent.mapWrite :: rest =>
      decide (0 < w) && lockDisciplineOk r w rest

/-- The state of a reader-writer lock, modelling `std::sync::RwLock`: how
many readers hold it and whether a writer holds it. -/
structure RwLockState where
  readers : Nat
  writerHeld : Bool
deriving DecidableEq

/-- Modelled from `std::sync::RwLock` semantics: acquiring a read guard
waits only for a writer, never for other readers. -/
def canAcquireRead (s : RwLockState) : Bool := !s.writerHeld

/-- Modelled from `std::sync::RwLock` semantics: acquiring the write guard
requires that no reader and no writer holds the lock. -/
def canAcquireWrite (s : RwLockState) : Bool :=
  !s.writerHeld && s.readers == 0

/-- C9: read acquisition is enabled whenever no writer holds the lock, no
matter how many concurrent readers hold it (readers never block one
another); write acquisition is enabled only with no readers and no writer
(a writer excludes everyone, so readers cannot observe a torn entry while
a write is in progress); and on every execution path of `load` and `store`
the map accesses happen under the appropriate lock, and a lock is acquired
only while holding nothing — in particular `load`'s fallback acquires the
write lock only after the read lock has been released, so no execution of
`load` can self-deadlock. -/
theorem cache_lock_discipline :
    (∀ n : Nat, canAcquireRead ⟨n, false⟩ = true)
    ∧ (∀ s : RwLockState, canAcquireWrite s = true →
        s.readers = 0 ∧ s.writerHeld = false)
    ∧ (∀ hit runtimeHas : Bool,
        lockDisciplineOk 0 0 (loadLockTrace hit runtimeHas) = true)
    ∧ lockDisciplineOk 0 0 storeLockTrace = true := by
  refine ⟨fun n => rfl, ?_, ?_, rfl⟩
  · intro s h
    obtain ⟨r, w⟩ := s
    cases w with
    | false =>
        simp only [canAcquireWrite, Bool.not_false, Bool.true_and,
          beq_iff_eq] at h
        exact ⟨h, rfl⟩
    | true => simp [canAcquireWrite] at h
  · intro hit runtimeHas
    cases hit <;> cases runtimeHas <;> rfl

/-- Witness for C9: with three concurrent readers and no writer a further
read acquisition is enabled, and the write guard on the free lock implies
the no-reader no-writer state. -/
theorem cache_lock_discipline_w :
    canAcquireRead ⟨3, false⟩ = true
    ∧ ((⟨0, false⟩ : RwLockState).readers = 0
        ∧ (⟨0, false⟩ : RwLockState).writerHeld = false)
    ∧ lockDisciplineOk 0 0 (loadLockTrace false true) = true :=
  ⟨cache_lock_discipline.1 3,
    cache_lock_discipline.2.1 ⟨0, false⟩ rfl,
    cache_lock_discipline.2.2.1 false true⟩

/-- The operations the cache exposes, for iterating sequences of calls. -/
inductive CacheOp where
  | loadOp (class_name : String) (superclass_name : Option String)
  | storeOp (class_name : String) (superclass_name : Option String) (cls : Nat)

/-- One cache operation applied to the map state. -/
def applyOp (rt : Runtime) (m : ClassMap) : CacheOp → ClassMap
  | CacheOp.loadOp n s => (ClassMap.load rt m n s).2
  | CacheOp.storeOp n s cls => ClassMap.store m n s cls

/-- A sequence of cache operations applied in order. -/
def applyOps (rt : Runtime) (m : ClassMap) : List CacheOp → ClassMap
  | [] => m
  | op :: rest => applyOps rt (applyOp rt m op) rest

/-- The keys currently cached. -/
def cacheKeys (m : ClassMap) : List ClassKey := m.map Prod.fst

theorem cacheKeys_insertEntry_sub (m : ClassMap) (k : ClassKey)
    (e : ClassEntry) :
    ∀ k2 ∈ cacheKeys m, k2 ∈ cacheKeys (insertEntry m k e) := by
  induction m with
  | nil => simp [cacheKeys]
  | cons p rest ih =>
      obtain ⟨k3, e3⟩ := p
      intro k2 hk2
      simp only [insertEntry]
      by_cases h : k3 = k
      · rw [if_pos h]
        simp only [cacheKeys, List.map_cons, List.mem_cons] at hk2 ⊢
        rcases hk2 with hk2 | hk2
        · exact Or.inl (hk2.trans h)
        · exact Or.inr hk2
      · rw [if_neg h]
        simp only [cacheKeys, List.map_cons, List.mem_cons] at hk2 ⊢
        rcases hk2 with hk2 | hk2
        · exact Or.inl hk2
        · exact Or.inr (ih k2 hk2)

theorem cacheKeys_insertEntry_mem (m : ClassMap) (k k2 : ClassKey)
    (e : ClassEntry) :
    k2 ∈ cacheKeys (insertEntry m k e) → k2 ∈ cacheKeys m ∨ k2 = k := by
  induction m with
  | nil =>
      intro h
      simp only [insertEntry, cacheKeys, List.map_cons, List.map_nil,
        List.mem_singleton] at h
      exact Or.inr h
  | cons p rest ih =>
      obtain ⟨k3, e3⟩ := p
      intro h
      simp only [insertEntry] at h
      by_cases hk : k3 = k
      · rw [if_pos hk] at h
        simp only [cacheKeys, List.map_cons, List.mem_cons] at h ⊢
        rcases h with h | h
        · exact Or.inr h
        · exact Or.inl (Or.inr h)
      · rw [if_neg hk] at h
        simp only [cacheKeys, List.map_cons, List.mem_cons] at h ⊢
        rcases h with h | h
        · exact Or.inl (Or.inl h)
        · rcases ih h with h2 | h2
          · exact Or.inl (Or.inr h2)
          · exact Or.inr h2

theorem cacheKeys_insertEntry_nodup (m : ClassMap) (k : ClassKey)
    (e : ClassEntry) :
    (cacheKeys m).Nodup → (cacheKeys (insertEntry m k e)).Nodup := by
  induction m with
  | nil =>
      intro h
      simp [insertEntry, cacheKeys]
  | cons p rest ih =>
      obtain ⟨k3, e3⟩ := p
      intro h
      simp only [cacheKeys, List.map_cons, List.nodup_cons] at h
      simp only [insertEntry]
      by_cases hk : k3 = k
      · rw [if_pos hk]
        simp only [cacheKeys, List.map_cons, List.nodup_cons]
        rw [hk] at h
        exact h
      · rw [if_neg hk]
        simp only [cacheKeys, List.map_cons, List.nodup_cons]
        refine ⟨?_, ih h.2⟩
        intro hmem
        rcases cacheKeys_insertEntry_mem rest k k3 e hmem with h2 | h2
        · exact h.1 h2
        · exact hk h2

theorem applyOp_keys (rt : Runtime) (m : ClassMap) (op : CacheOp) :
    (∀ k ∈ cacheKeys m, k ∈ cacheKeys (applyOp rt m op))
    ∧ ((cacheKeys m).Nodup → (cacheKeys (applyOp rt m op)).Nodup) := by
  cases op with
  | loadOp n s =>
      rcases load_cases rt m n s with ⟨e, he, hl⟩ | ⟨h1, h2, hl⟩ |
        ⟨c, h1, h2, hl⟩
      · constructor
        · intro k hk
          simpa [applyOp, hl] using hk
        · intro h
          simpa [applyOp, hl] using h
      · constructor
        · intro k hk
          simpa [applyOp, hl] using hk
        · intro h
          simpa [applyOp, hl] using h
      · constructor
        · intro k hk
          simp only [applyOp, hl]
          exact cacheKeys_insertEntry_sub m (n, s) ⟨s, c⟩ k hk
        · intro h
          simp only [applyOp, hl]
          exact cacheKeys_insertEntry_nodup m (n, s) ⟨s, c⟩ h
  | storeOp n s cls =>
      exact ⟨cacheKeys_insertEntry_sub m (n, s) ⟨s, cls⟩,
        cacheKeys_insertEntry_nodup m (n, s) ⟨s, cls⟩⟩

/-- C10: no cache operation removes an entry — over any sequence of load
and store calls every key cached beforehand is still cached afterwards, so
the key set grows monotonically — and key distinctness (at most one entry
per key) is preserved throughout. -/
theorem cache_keys_monotone (rt : Runtime) (ops : List CacheOp)
    (m : ClassMap) :
    (∀ k ∈ cacheKeys m, k ∈ cacheKeys (applyOps rt m ops))
    ∧ ((cacheKeys m).Nodup → (cacheKeys (applyOps rt m ops)).Nodup) := by
  induction ops generalizing m with
  | nil => exact ⟨fun k hk => hk, fun h => h⟩
  | cons op rest ih =>
      have h1 := applyOp_keys rt m op
      have h2 := ih (applyOp rt m op)
      exact ⟨fun k hk => h2.1 k (h1.1 k hk), fun h => h2.2 (h1.2 h)⟩

/-- Witness for C10: after a store, a cached plain load and another store,
the first key is still cached and the key list stays duplicate-free. -/
theorem cache_keys_monotone_w :
    ((("B"), some ("A")) ∈ cacheKeys
        (applyOps rtB (ClassMap.store [] ("B") (some ("A")) 1)
          [CacheOp.loadOp ("B") none, CacheOp.storeOp ("C") none 3]))
    ∧ (cacheKeys (applyOps rtB (ClassMap.store [] ("B") (some ("A")) 1)
        [CacheOp.loadOp ("B") none,
          CacheOp.storeOp ("C") none 3])).Nodup := by
  have h := cache_keys_monotone rtB
    [CacheOp.loadOp ("B") none, CacheOp.storeOp ("C") none 3]
    (ClassMap.store [] ("B") (some ("A")) 1)
  exact ⟨h.1 (("B"), some ("A")) (by decide), h.2 (by decide)⟩
